import Mathlib

/-!
Verification of the JetStream client core (`js.go`): a shallow embedding of
the publish path, the pull-fetch protocol, the per-message acknowledgment
state machine, the metadata parser and the enum JSON codecs, together with
theorems settling the specification's claims against this embedding.

Conventions of the embedding:
* Go machine integers become `Int`/`Nat`; the `uint64(int64)` conversion is
  made explicit via `uint64Of`.
* Fallible Go functions returning `(T, error)` become `Except Err T` or
  `T × Option Err` (the latter when the code can return both a value and an
  error, as `Fetch` does).
* Stateful code (the atomic `ackd` flag, the fetch collection loop) becomes
  explicit state passing over lists of events.
* Transport interactions (request/reply, channel deliveries, context
  cancellation) are inputs to the embedded functions: a function receives the
  reply or event trace the transport would have produced and computes the
  same result the Go code computes from it.
-/

/-- The error values of the client that the embedded code can surface.
`errDescr s` stands for `errors.New(s)` built from a server-provided
description; `errOther s` stands for any other transport-level error. -/
inductive Err where
  | ErrInvalidJSAck
  | ErrNotJSMessage
  | ErrMsgNotBound
  | ErrMsgNoReply
  | ErrNoResponders
  | ErrNoStreamResponse
  | ErrTimeout
  | ErrContextAndTimeout
  | ErrBadSubscription
  | ErrTypeSubscription
  | errNoMessages
  | errContextCanceled
  | errContextDeadline
  | errDescr (s : String)
  | errOther (s : String)
deriving DecidableEq, Repr

/-- Headers of a message (`http.Header`), observed through `Get`/`Set`.
`Set` prepends and `Get` returns the first binding, which gives the same
`Get`-observations as Go's replace-on-`Set` semantics. -/
abbrev Header := List (String × String)

/-- `http.Header.Get`: first value bound to the key, `""` when absent. -/
def hGet : Header → String → String
  | [], _ => ""
  | (k, v) :: rest, key => if key = k then v else hGet rest key

/-- `http.Header.Set`: bind `key` to `v`, shadowing previous bindings. -/
def hSet (h : Header) (key v : String) : Header := (key, v) :: h

theorem hGet_hSet_self (h : Header) (k v : String) : hGet (hSet h k v) k = v := by
  simp [hGet, hSet]

theorem hGet_hSet_of_ne (h : Header) (k v key : String) (hne : key ≠ k) :
    hGet (hSet h k v) key = hGet h key := by
  simp [hGet, hSet, hne]

/-- An inbound or outbound message (`Msg`): subject, reply subject, payload
and headers.  The atomic `ackd` flag is carried separately by the ack-engine
state machine below. -/
structure Msg where
  subject : String
  reply : String
  data : String
  header : Header
deriving DecidableEq, Repr

/- Ack payload byte tokens (`js.go` lines 1480-1486). -/

def AckAck : String := "+ACK"

def AckNak : String := "-NAK"

def AckProgress : String := "+WPI"

def AckNext : String := "+NXT"

def AckTerm : String := "+TERM"

/-- One step of `(*Msg).ackReply` (`js.go` lines 1239-1285) for a message on
a streaming subscription.  Inputs: whether the message is bound to a
subscription (`m.Sub != nil`), whether it has a reply subject, the current
value of the atomic `ackd` flag, the ack payload token, and the result of the
transport publish/request (`none` = success).  Output: the returned error (if
any) and the new value of the `ackd` flag.  The flag is set only on a
successful send of a token other than `+WPI`. -/
def ackReply (bound hasReply : Bool) (ackd : Bool) (ackType : String)
    (transportErr : Option Err) : Option Err × Bool :=
  if bound = false then (some .ErrMsgNotBound, ackd)
  else if hasReply = false then (some .ErrMsgNoReply, ackd)
  else if ackd then (some .ErrInvalidJSAck, ackd)
  else
    match transportErr with
    | some e => (some e, ackd)
    | none => if ackType = AckProgress then (none, ackd) else (none, true)

/-- The five public ack calls (`js.go` lines 1290-1313); `ack` and `ackSync`
both send `+ACK` (fire-and-forget vs request-reply). -/
inductive AckCall where
  | ack
  | ackSync
  | nak
  | term
  | inProgress
deriving DecidableEq, Repr

/-- The payload token each ack call passes to `ackReply`. -/
def ackCallType : AckCall → String
  | .ack => AckAck
  | .ackSync => AckAck
  | .nak => AckNak
  | .term => AckTerm
  | .inProgress => AckProgress

/-- Terminal ack calls are all except `InProgress`. -/
def ackIsTerminal : AckCall → Bool
  | .inProgress => false
  | _ => true

/-- One ack call on a message delivered through a streaming subscription with
a non-empty reply subject (so `checkReply` succeeds), paired with the
transport outcome of that call. -/
def ackStep (ackd : Bool) (c : AckCall × Option Err) : Option Err × Bool :=
  ackReply true true ackd (ackCallType c.1) c.2

/-- Run a sequence of ack calls against one message, returning the list of
results (the flag threads through the calls). -/
def ackRun (ackd : Bool) : List (AckCall × Option Err) → List (Option Err)
  | [] => []
  | c :: cs => (ackStep ackd c).1 :: ackRun (ackStep ackd c).2 cs

theorem ackStep_flagged (c : AckCall) (tErr : Option Err) :
    ackStep true (c, tErr) = (some .ErrInvalidJSAck, true) := by
  simp [ackStep, ackReply]

theorem ackRun_flagged (cs : List (AckCall × Option Err)) :
    ackRun true cs = cs.map (fun _ => some Err.ErrInvalidJSAck) := by
  induction cs with
  | nil => rfl
  | cons c cs ih => simp [ackRun, ackStep_flagged (c.1) (c.2), ih]

theorem ackStep_flagged_pair (c : AckCall × Option Err) :
    ackStep true c = (some .ErrInvalidJSAck, true) := by
  simp [ackStep, ackReply]

theorem ackRun_flagged_no_success (cs : List (AckCall × Option Err)) :
    ((cs.zip (ackRun true cs)).countP
      (fun p => ackIsTerminal p.1.1 && (p.2 == none))) = 0 := by
  induction cs with
  | nil => rfl
  | cons c cs ih =>
      simp [ackRun, ackStep_flagged_pair, List.countP_cons, ih]

theorem ackIsTerminal_ack : ackIsTerminal AckCall.ack = true := rfl

theorem ackIsTerminal_ackSync : ackIsTerminal AckCall.ackSync = true := rfl

theorem ackIsTerminal_nak : ackIsTerminal AckCall.nak = true := rfl

theorem ackIsTerminal_term : ackIsTerminal AckCall.term = true := rfl

theorem ackIsTerminal_inProgress : ackIsTerminal AckCall.inProgress = false := rfl

theorem ackRun_term_succ_le_one (cs : List (AckCall × Option Err)) :
    ((cs.zip (ackRun false cs)).countP
      (fun p => ackIsTerminal p.1.1 && (p.2 == none))) ≤ 1 := by
  induction cs with
  | nil => simp [ackRun]
  | cons c cs ih =>
      rcases c with ⟨call, tErr⟩
      cases call <;> rcases tErr with _ | e <;>
        simp [ackRun, ackStep, ackReply, ackCallType,
          ackIsTerminal_ack, ackIsTerminal_ackSync, ackIsTerminal_nak,
          ackIsTerminal_term, ackIsTerminal_inProgress,
          AckAck, AckNak, AckTerm, AckProgress, List.countP_cons,
          List.zip_cons_cons, ackRun_flagged_no_success, ih]

/-- C1: for a message delivered through a streaming subscription with a
non-empty reply subject, at most one call among Ack, AckSync, Nak and Term
ever succeeds over any sequence of ack calls; once the atomic `ackd` flag is
set every further call returns `ErrInvalidJSAck`; `InProgress` never changes
the flag; a successful terminal call with the flag clear sets the flag; and
arbitrarily many `InProgress` calls succeed while the flag stays clear. -/
theorem ackReply_terminal_once :
    (∀ cs : List (AckCall × Option Err),
        ((cs.zip (ackRun false cs)).countP
          (fun p => ackIsTerminal p.1.1 && (p.2 == none))) ≤ 1)
    ∧ (∀ (c : AckCall) (tErr : Option Err),
        ackStep true (c, tErr) = (some Err.ErrInvalidJSAck, true))
    ∧ (∀ (a : Bool) (tErr : Option Err),
        (ackStep a (AckCall.inProgress, tErr)).2 = a)
    ∧ (∀ (c : AckCall) (tErr : Option Err), ackIsTerminal c = true → tErr = none →
        ackStep false (c, tErr) = (none, true))
    ∧ (∀ n : Nat,
        ackRun false (List.replicate n (AckCall.inProgress, none)) =
          List.replicate n none) := by
  refine ⟨ackRun_term_succ_le_one, fun c tErr => ackStep_flagged_pair (c, tErr),
    ?_, ?_, ?_⟩
  · intro a tErr
    cases a <;> rcases tErr with _ | e <;>
      simp [ackStep, ackReply, ackCallType, AckProgress]
  · intro c tErr hterm htr
    subst htr
    cases c <;> simp_all [ackStep, ackReply, ackCallType, ackIsTerminal,
      AckAck, AckNak, AckTerm, AckProgress]
  · intro n
    induction n with
    | zero => rfl
    | succ n ih =>
        simp [List.replicate_succ, ackRun, ackStep, ackReply, ackCallType,
          AckProgress, ih]

/-- Witness for C1 at concrete inputs: a first Nak with the flag clear
succeeds and sets the flag, and a concrete two-terminal-call run has at most
one success. -/
theorem ackReply_terminal_once_witness :
    ackStep false (AckCall.nak, none) = (none, true)
    ∧ (([(AckCall.ack, (none : Option Err)), (AckCall.term, none)].zip
        (ackRun false [(AckCall.ack, none), (AckCall.term, none)])).countP
        (fun p => ackIsTerminal p.1.1 && (p.2 == none))) ≤ 1 :=
  ⟨ackReply_terminal_once.2.2.2.1 AckCall.nak none (by decide) rfl,
   ackReply_terminal_once.1 _⟩

/- Pull fetch (`js.go` lines 916-1186). -/

/-- Modelled from the spec: the name of the status header carried by
zero-payload server replies (defined by the transport layer, outside
`js.go`). -/
def statusHdr : String := "Status"

/-- Modelled from the spec: the name of the description header read when a
`400`/`408`/`409` status is reported (defined by the transport layer, outside
`js.go`). -/
def descrHdr : String := "Description"

/-- Modelled from the spec: the transport's "no responders" status sentinel
(defined by the transport layer, outside `js.go`). -/
def noResponders : String := "503"

/-- Modelled from the spec: the "no messages" (404) status sentinel (defined
outside `js.go`). -/
def noMessages : String := "404"

/-- The `checkMsg` closure inside `Fetch` (`js.go` lines 975-987): classify
an empty-payload message by its `Status` header. -/
def checkMsg (m : Msg) : Option Err :=
  if m.data.length = 0 then
    if hGet m.header statusHdr = noResponders then some .ErrNoResponders
    else if hGet m.header statusHdr = noMessages then some .errNoMessages
    else if hGet m.header statusHdr = "400" ∨ hGet m.header statusHdr = "408"
        ∨ hGet m.header statusHdr = "409" then
      some (.errDescr (hGet m.header descrHdr))
    else none
  else none

/-- The two values `ctx.Err()` can take once a context is done. -/
inductive CtxErr where
  | canceled
  | deadlineExceeded
deriving DecidableEq, Repr

/-- The error value `ctx.Err()` maps to in the embedding. -/
def ctxErrVal : CtxErr → Err
  | .canceled => .errContextCanceled
  | .deadlineExceeded => .errContextDeadline

/-- The `checkCtxErr` closure inside `Fetch` (`js.go` lines 989-994):
a deadline error from the internally derived context becomes `ErrTimeout`;
`hasCtx` records whether the caller supplied its own context. -/
def checkCtxErrE (hasCtx : Bool) (e : Err) : Err :=
  if hasCtx = false ∧ e = .errContextDeadline then .ErrTimeout else e

/-- `checkCtxErr` lifted to an optional error. -/
def checkCtxErr (hasCtx : Bool) : Option Err → Option Err
  | none => none
  | some e => some (checkCtxErrE hasCtx e)

/-- One delivery observed by the multi-message path of `Fetch` while waiting
on the inbox channel or the context: a message delivered from the channel
(`msg`), a delivered message on which `processNextMsgDelivered` reported an
error (`procErr`), the channel found closed with `getNextMsgErr`'s error
(`closed`), or the context firing (`ctxDone`). -/
inductive FetchEvent where
  | msg (m : Msg)
  | procErr (m : Msg) (e : Err)
  | closed (e : Err)
  | ctxDone (ce : CtxErr)
deriving DecidableEq, Repr

/-- Pop the next event of the trace.  An exhausted trace stands for the
context deadline firing with no further channel activity. -/
def selectEvent : List FetchEvent → FetchEvent × List FetchEvent
  | [] => (.ctxDone .deadlineExceeded, [])
  | e :: rest => (e, rest)

/-- The first-delivery select of the multi-message path (`js.go` lines
1071-1083 and 1118-1130): receive a message and classify it with `checkMsg`,
or surface the channel/context error. -/
def firstStep (hasCtx : Bool) : FetchEvent → Except Err Msg
  | .msg m =>
      match checkMsg m with
      | some e => .error e
      | none => .ok m
  | .procErr _ e => .error e
  | .closed e => .error e
  | .ctxDone ce => .error (checkCtxErrE hasCtx (ctxErrVal ce))

/-- The collection loop of the multi-message path (`js.go` lines 1151-1183):
append data messages until `len(msgs) == batch`; any status message, channel
error or processing error breaks the loop and the collected messages are
returned with a nil error; the context firing returns the collected messages
with `checkCtxErr` of the (necessarily nil) error of the previous iteration. -/
def fetchLoop (hasCtx : Bool) (batch : Int) (msgs : List Msg) :
    List FetchEvent → List Msg × Option Err
  | [] => (msgs, checkCtxErr hasCtx none)
  | e :: rest =>
    match e with
    | .ctxDone _ => (msgs, checkCtxErr hasCtx none)
    | .closed _ => (msgs, none)
    | .procErr _ _ => (msgs, none)
    | .msg m =>
        match checkMsg m with
        | some _ => (msgs, none)
        | none =>
            if ((msgs.length + 1 : Int) = batch) then (msgs ++ [m], none)
            else fetchLoop hasCtx batch (msgs ++ [m]) rest

/-- The transport interactions a `Fetch` call consumes, given as inputs to
the embedding: the outcome of the initial `ctx.Done()` check, the two
request/reply exchanges of the single-message path, the outcomes of the
subscribe/publish/auto-unsubscribe calls of the multi-message path, and the
trace of deliveries on the inbox channel. -/
structure FetchIO where
  ctxDoneAtStart : Option CtxErr
  resp1 : Except Err Msg
  resp2 : Except Err Msg
  subErr : Option Err
  pubErr : Option Err
  unsubErr : Option Err
  pub2Err : Option Err
  unsubErr2 : Option Err
  events : List FetchEvent
deriving Repr

/-- Per-call pull options (`pullOpts`): a per-call timeout (`ttl`, zero when
unset) and whether a caller-supplied context is present. -/
structure pullOpts where
  ttl : Int
  hasCtx : Bool
deriving DecidableEq, Repr

/-- The effective timeout of a `Fetch` call (`js.go` lines 941-944): the
per-call `ttl`, or the context's default wait when the per-call `ttl` is
unset. -/
def fetchTTL (wait : Int) (o : pullOpts) : Int :=
  if o.ttl = 0 then wait else o.ttl

/-- The single-message fast path of `Fetch` (`js.go` lines 1006-1041):
issue a NoWait request; on a `404` status fall back to one old-style
long-poll request; any other status or transport error is surfaced. -/
def fetchOne (hasCtx : Bool) (resp1 resp2 : Except Err Msg) :
    List Msg × Option Err :=
  match resp1 with
  | .error e => ([], some (checkCtxErrE hasCtx e))
  | .ok m =>
      match checkMsg m with
      | none => ([m], none)
      | some e =>
          if e = .errNoMessages then
            match resp2 with
            | .error e2 => ([], some (checkCtxErrE hasCtx e2))
            | .ok m2 =>
                match checkMsg m2 with
                | some e2 => ([], some e2)
                | none => ([m2], none)
          else ([], some (checkCtxErrE hasCtx e))

/-- The multi-message path of `Fetch` (`js.go` lines 1043-1185): subscribe
to a fresh inbox, publish the NoWait request, classify the first delivery
(falling back to a long-poll request and a second first-delivery wait when it
is a `404`), then run the collection loop seeded with the first message. -/
def fetchMulti (hasCtx : Bool) (batch : Int) (io : FetchIO) :
    List Msg × Option Err :=
  match io.subErr with
  | some e => ([], some e)
  | none =>
    match io.pubErr with
    | some e => ([], some e)
    | none =>
      match firstStep hasCtx (selectEvent io.events).1 with
      | .error e =>
          if e = .errNoMessages then
            match io.unsubErr with
            | some e2 => ([], some e2)
            | none =>
              match io.pub2Err with
              | some e2 => ([], some e2)
              | none =>
                match firstStep hasCtx (selectEvent (selectEvent io.events).2).1 with
                | .error e3 => ([], some e3)
                | .ok fm =>
                    match checkMsg fm with
                    | some e3 => ([], some e3)
                    | none =>
                        fetchLoop hasCtx batch [fm]
                          (selectEvent (selectEvent io.events).2).2
          else ([], some e)
      | .ok fm =>
          match io.unsubErr2 with
          | some e2 => ([], some e2)
          | none => fetchLoop hasCtx batch [fm] (selectEvent io.events).2

/-- `(*Subscription).Fetch` (`js.go` lines 916-1186).  `subNil` models
`sub == nil`; `typOk` models `sub.jsi != nil && sub.typ == PullSubscription`;
`wait` is the context's default wait `js.opts.wait`. -/
def Fetch (subNil typOk : Bool) (wait : Int) (batch : Int) (o : pullOpts)
    (io : FetchIO) : List Msg × Option Err :=
  if subNil then ([], some .ErrBadSubscription)
  else if o.hasCtx ∧ o.ttl ≠ 0 then ([], some .ErrContextAndTimeout)
  else if typOk = false then ([], some .ErrTypeSubscription)
  else
    -- the effective timeout drives the internally derived context's deadline
    -- and the long-poll `Expires`; both are abstracted into `io`
    let _ttl := fetchTTL wait o
    match io.ctxDoneAtStart with
    | some .canceled => ([], some .errContextCanceled)
    | some .deadlineExceeded => ([], some .ErrTimeout)
    | none =>
        if batch = 1 then fetchOne o.hasCtx io.resp1 io.resp2
        else fetchMulti o.hasCtx batch io

theorem fetchLoop_length (hasCtx : Bool) (batch : Int) :
    ∀ (events : List FetchEvent) (msgs : List Msg), (msgs.length : Int) < batch →
      (((fetchLoop hasCtx batch msgs events).1.length : Int)) ≤ batch := by
  intro events
  induction events with
  | nil => intro msgs h; simpa [fetchLoop] using le_of_lt h
  | cons e rest ih =>
      intro msgs h
      cases e with
      | ctxDone ce => simpa [fetchLoop] using le_of_lt h
      | closed e' => simpa [fetchLoop] using le_of_lt h
      | procErr m e' => simpa [fetchLoop] using le_of_lt h
      | msg m =>
          cases hc : checkMsg m with
          | some e' => simpa [fetchLoop, hc] using le_of_lt h
          | none =>
              by_cases hb : ((msgs.length + 1 : Int) = batch)
              · simp [fetchLoop, hc, hb]
              · simp only [fetchLoop, hc, if_neg hb]
                exact ih (msgs ++ [m])
                  (by simp only [List.length_append, List.length_singleton]
                      push_cast
                      omega)

theorem fetchOne_length (hasCtx : Bool) (r1 r2 : Except Err Msg) :
    (fetchOne hasCtx r1 r2).1.length ≤ 1
    ∧ ((fetchOne hasCtx r1 r2).2 = none → (fetchOne hasCtx r1 r2).1.length = 1) := by
  rcases r1 with e | m
  · simp [fetchOne]
  · cases hc : checkMsg m with
    | none => simp [fetchOne, hc]
    | some e =>
        by_cases he : e = Err.errNoMessages
        · rcases r2 with e2 | m2
          · simp [fetchOne, hc, he]
          · cases hc2 : checkMsg m2 with
            | none => simp [fetchOne, hc, he, hc2]
            | some e2 => simp [fetchOne, hc, he, hc2]
        · simp [fetchOne, hc, he]

theorem fetchMulti_length (hasCtx : Bool) (batch : Int) (io : FetchIO)
    (h2 : 2 ≤ batch) :
    ((fetchMulti hasCtx batch io).1.length : Int) ≤ batch := by
  have hloop : ∀ (events : List FetchEvent) (m : Msg),
      (((fetchLoop hasCtx batch [m] events).1.length : Int)) ≤ batch := by
    intro events m
    exact fetchLoop_length hasCtx batch events [m] (by simp; omega)
  unfold fetchMulti
  repeat' split
  all_goals first
    | exact hloop _ _
    | (simp only [List.length_nil, Int.natCast_zero]; omega)

/-- C2: a `Fetch(batch, ...)` call with `batch >= 1` returns at most `batch`
messages, and on the single-message fast path (`batch == 1`) a successful
return is exactly a one-element slice. -/
theorem Fetch_at_most_batch (subNil typOk : Bool) (wait batch : Int)
    (o : pullOpts) (io : FetchIO) (hb : 1 ≤ batch) :
    (((Fetch subNil typOk wait batch o io).1.length : Int) ≤ batch)
    ∧ (batch = 1 → (Fetch subNil typOk wait batch o io).2 = none →
        (Fetch subNil typOk wait batch o io).1.length = 1) := by
  unfold Fetch
  by_cases hs : subNil = true
  · simp [hs]; omega
  · simp only [if_neg hs]
    by_cases hcol : o.hasCtx ∧ o.ttl ≠ 0
    · simp [hcol]; omega
    · simp only [if_neg hcol]
      by_cases ht : typOk = false
      · simp [ht]; omega
      · simp only [if_neg ht]
        rcases hio : io.ctxDoneAtStart with _ | ce
        · simp only [hio]
          by_cases h1 : batch = 1
          · subst h1
            rw [if_pos rfl]
            refine ⟨?_, fun _ => (fetchOne_length o.hasCtx io.resp1 io.resp2).2⟩
            have := (fetchOne_length o.hasCtx io.resp1 io.resp2).1
            omega
          · simp only [if_neg h1]
            exact ⟨fetchMulti_length o.hasCtx batch io (by omega),
              fun hcon => absurd hcon h1⟩
        · cases ce <;> simp [hio] <;> omega

/-- Witness for C2 at a concrete input: `batch = 1`, the fast path returning
a single data message. -/
theorem Fetch_at_most_batch_witness :
    (((Fetch false true 5 1 ⟨0, false⟩
        ⟨none, .ok ⟨"s", "r", "x", []⟩, .ok ⟨"s", "r", "x", []⟩,
         none, none, none, none, none, []⟩).1.length : Int) ≤ 1)
    ∧ ((1 : Int) = 1 →
        (Fetch false true 5 1 ⟨0, false⟩
          ⟨none, .ok ⟨"s", "r", "x", []⟩, .ok ⟨"s", "r", "x", []⟩,
           none, none, none, none, none, []⟩).2 = none →
        (Fetch false true 5 1 ⟨0, false⟩
          ⟨none, .ok ⟨"s", "r", "x", []⟩, .ok ⟨"s", "r", "x", []⟩,
           none, none, none, none, none, []⟩).1.length = 1) :=
  Fetch_at_most_batch false true 5 1 ⟨0, false⟩
    ⟨none, .ok ⟨"s", "r", "x", []⟩, .ok ⟨"s", "r", "x", []⟩,
     none, none, none, none, none, []⟩ (by norm_num)

/-- C3: on the multi-message pull path, once at least one data message has
been collected a status message arriving mid-batch (e.g. Status 408)
terminates the collection loop without surfacing an error — the already
collected messages are returned with a nil error — while the single-message
path surfaces the same status as an error.  The third conjunct exercises this
through the full `Fetch` entry point. -/
theorem Fetch_status_mid_batch :
    (∀ (hasCtx : Bool) (batch : Int) (msgs : List Msg) (m : Msg)
        (rest : List FetchEvent),
        (checkMsg m).isSome = true →
        fetchLoop hasCtx batch msgs (.msg m :: rest) = (msgs, none))
    ∧ (∀ (hasCtx : Bool) (m : Msg) (r2 : Except Err Msg),
        m.data.length = 0 → hGet m.header statusHdr = "408" →
        fetchOne hasCtx (.ok m) r2 =
          ([], some (.errDescr (hGet m.header descrHdr))))
    ∧ (∀ (wait batch : Int) (o : pullOpts) (io : FetchIO) (m1 m2 : Msg)
        (rest : List FetchEvent),
        o.hasCtx = false →
        io.ctxDoneAtStart = none → io.subErr = none → io.pubErr = none →
        io.unsubErr2 = none →
        io.events = .msg m1 :: .msg m2 :: rest →
        checkMsg m1 = none → (checkMsg m2).isSome = true →
        batch ≠ 1 →
        Fetch false true wait batch o io = ([m1], none)) := by
  refine ⟨?_, ?_, ?_⟩
  · intro hasCtx batch msgs m rest hm
    rcases ho : checkMsg m with _ | e
    · rw [ho] at hm; simp at hm
    · simp [fetchLoop, ho]
  · intro hasCtx m r2 hdata hstat
    have hc : checkMsg m = some (.errDescr (hGet m.header descrHdr)) := by
      simp [checkMsg, hdata, hstat, noResponders, noMessages]
    simp [fetchOne, hc, checkCtxErrE]
  · intro wait batch o io m1 m2 rest hctx hstart hsub hpub hunsub hevents hm1 hm2 hbatch
    rcases ho : checkMsg m2 with _ | e
    · rw [ho] at hm2; simp at hm2
    · unfold Fetch
      rw [if_neg (by simp)]
      rw [if_neg (by simp [hctx])]
      rw [if_neg (by simp)]
      rw [hstart]
      rw [if_neg hbatch]
      unfold fetchMulti
      rw [hsub, hpub, hevents]
      simp only [selectEvent]
      simp only [firstStep, hm1]
      rw [hunsub]
      simp [fetchLoop, ho]

/-- Witness for C3 at a concrete input: `batch = 10`, one data message
followed by a `Status: 408` message; `Fetch` returns the one collected
message and no error. -/
theorem Fetch_status_mid_batch_witness :
    Fetch false true 5 10 ⟨0, false⟩
      ⟨none, .ok ⟨"s", "r", "x", []⟩, .ok ⟨"s", "r", "x", []⟩, none, none,
       none, none, none,
       [.msg ⟨"s", "r", "x", []⟩,
        .msg ⟨"s", "r2", "", [("Status", "408"), ("Description", "to")]⟩]⟩ =
      ([⟨"s", "r", "x", []⟩], none) :=
  Fetch_status_mid_batch.2.2 5 10 ⟨0, false⟩ _ _ _ [] rfl rfl rfl rfl rfl rfl
    (by decide) (by decide) (by decide)

/- Publish path (`js.go` lines 208-315). -/

/- Headers for published messages (`js.go` lines 243-248). -/

def MsgIdHdr : String := "Nats-Msg-Id"

def ExpectedStreamHdr : String := "Nats-Expected-Stream"

def ExpectedLastSeqHdr : String := "Nats-Expected-Last-Sequence"

def ExpectedLastMsgIdHdr : String := "Nats-Expected-Last-Msg-Id"

/-- Per-call publish options (`pubOpts`): timeout `ttl` (zero when unset),
presence of a caller-supplied context, message id `id`, expected last message
id `lid`, expected stream name `str`, expected last sequence `seq` (uint64). -/
structure pubOpts where
  ttl : Int
  hasCtx : Bool
  id : String
  lid : String
  str : String
  seq : Nat
deriving DecidableEq, Repr

/-- Option collision check and timeout defaulting of `PublishMsg` (`js.go`
lines 263-269): a caller context together with a nonzero timeout is
`ErrContextAndTimeout`; when neither is supplied the context default `wait`
becomes the timeout. -/
def pubCheckOpts (wait : Int) (o : pubOpts) : Except Err Int :=
  if o.hasCtx ∧ o.ttl ≠ 0 then .error .ErrContextAndTimeout
  else if o.ttl = 0 ∧ o.hasCtx = false then .ok wait
  else .ok o.ttl

/-- Header encoding of the publish options (`js.go` lines 271-282): each
header is set only when the corresponding option value is non-empty
(respectively, strictly positive for the expected last sequence, which is
rendered in decimal). -/
def applyPubHeaders (o : pubOpts) (h : Header) : Header :=
  let h1 := if o.id ≠ "" then hSet h MsgIdHdr o.id else h
  let h2 := if o.lid ≠ "" then hSet h1 ExpectedLastMsgIdHdr o.lid else h1
  let h3 := if o.str ≠ "" then hSet h2 ExpectedStreamHdr o.str else h2
  if 0 < o.seq then hSet h3 ExpectedLastSeqHdr (toString o.seq) else h3

/-- `PubAck` (`js.go` lines 236-240). -/
structure PubAck where
  stream : String
  seq : Nat
  duplicate : Bool
deriving DecidableEq, Repr

/-- Modelled from the spec: the optional error object of an API response
envelope (code, description); the `apiResponse`/`ApiError` types live outside
`js.go`. -/
structure ApiError where
  code : Int
  description : String
deriving DecidableEq, Repr

/-- `pubAckResponse` (`js.go` lines 230-233): an API envelope with an
optional error object and an optional embedded `PubAck`. -/
structure pubAckResponse where
  error : Option ApiError
  pubAck : Option PubAck
deriving DecidableEq, Repr

/-- Reply processing of `PublishMsg` (`js.go` lines 299-309).  `decoded` is
`none` when `json.Unmarshal` fails on the reply payload. -/
def processPubAck (decoded : Option pubAckResponse) : Except Err PubAck :=
  match decoded with
  | none => .error .ErrInvalidJSAck
  | some pa =>
      match pa.error with
      | some e => .error (.errDescr e.description)
      | none =>
          match pa.pubAck with
          | none => .error .ErrInvalidJSAck
          | some a => if a.stream = "" then .error .ErrInvalidJSAck else .ok a

/-- `(*js).PublishMsg` (`js.go` lines 251-310): check option collisions,
default the timeout, encode the option headers onto the message, issue the
request (its outcome is the input `resp`, with `ErrNoResponders` mapped to
`ErrNoStreamResponse`), and process the publish-ack reply.  Returns the
call's result together with the message's headers as sent. -/
def PublishMsg (wait : Int) (o : pubOpts) (h : Header)
    (resp : Except Err (Option pubAckResponse)) : Except Err PubAck × Header :=
  match pubCheckOpts wait o with
  | .error e => (.error e, h)
  | .ok _ =>
      let h2 := applyPubHeaders o h
      match resp with
      | .error e =>
          (.error (if e = .ErrNoResponders then .ErrNoStreamResponse else e), h2)
      | .ok d => (processPubAck d, h2)

theorem processPubAck_spec (d : Option pubAckResponse) :
    (processPubAck d = .error .ErrInvalidJSAck ↔
      d = none ∨ ∃ pa, d = some pa ∧ pa.error = none ∧
        (pa.pubAck = none ∨ ∃ a, pa.pubAck = some a ∧ a.stream = ""))
    ∧ (∀ pa e, d = some pa → pa.error = some e →
        processPubAck d = .error (.errDescr e.description))
    ∧ (∀ pa a, d = some pa → pa.error = none → pa.pubAck = some a →
        a.stream ≠ "" → processPubAck d = .ok a) := by
  rcases d with _ | ⟨er, ak⟩
  · simp [processPubAck]
  · rcases er with _ | e
    · rcases ak with _ | a
      · refine ⟨by simp [processPubAck], ?_, ?_⟩
        · intro pa e hpe he
          obtain rfl := Option.some.inj hpe
          simp at he
        · intro pa a hpe _ hpa
          obtain rfl := Option.some.inj hpe
          simp at hpa
      · by_cases hs : a.stream = ""
        · refine ⟨by simp [processPubAck, hs], ?_, ?_⟩
          · intro pa e hpe he
            obtain rfl := Option.some.inj hpe
            simp at he
          · intro pa a2 hpe _ hpa hstream
            obtain rfl := Option.some.inj hpe
            simp at hpa
            subst hpa
            exact absurd hs hstream
        · refine ⟨by simp [processPubAck, hs], ?_, ?_⟩
          · intro pa e hpe he
            obtain rfl := Option.some.inj hpe
            simp at he
          · intro pa a2 hpe _ hpa _
            obtain rfl := Option.some.inj hpe
            simp at hpa
            subst hpa
            simp [processPubAck, hs]
    · refine ⟨by simp [processPubAck], ?_, ?_⟩
      · intro pa e2 hpe he
        obtain rfl := Option.some.inj hpe
        simp at he
        subst he
        simp [processPubAck]
      · intro pa a hpe he _
        obtain rfl := Option.some.inj hpe
        simp at he

/-- C5: given a reply to the publish request, `PublishMsg` fails with
`ErrInvalidJSAck` exactly when the reply payload does not decode as a
publish-ack envelope, or decodes with a nil error object but a missing or
empty stream name; when the envelope carries a non-nil error object the call
fails with that error's description; otherwise the decoded `PubAck` is
returned. -/
theorem PublishMsg_ack_validation (wait : Int) (o : pubOpts) (h : Header)
    (d : Option pubAckResponse) (hno : ¬(o.hasCtx ∧ o.ttl ≠ 0)) :
    ((PublishMsg wait o h (.ok d)).1 = .error .ErrInvalidJSAck ↔
      d = none ∨ ∃ pa, d = some pa ∧ pa.error = none ∧
        (pa.pubAck = none ∨ ∃ a, pa.pubAck = some a ∧ a.stream = ""))
    ∧ (∀ pa e, d = some pa → pa.error = some e →
        (PublishMsg wait o h (.ok d)).1 = .error (.errDescr e.description))
    ∧ (∀ pa a, d = some pa → pa.error = none → pa.pubAck = some a →
        a.stream ≠ "" → (PublishMsg wait o h (.ok d)).1 = .ok a) := by
  have hok : (PublishMsg wait o h (.ok d)).1 = processPubAck d := by
    unfold PublishMsg pubCheckOpts
    rw [if_neg hno]
    by_cases h2 : o.ttl = 0 ∧ o.hasCtx = false <;> simp [h2]
  simpa only [hok] using processPubAck_spec d

/-- Witness for C5 at concrete inputs: a well-formed envelope yields its
`PubAck`, a missing stream name yields `ErrInvalidJSAck`, and a server error
yields its description. -/
theorem PublishMsg_ack_validation_witness :
    (PublishMsg 5 ⟨0, false, "", "", "", 0⟩ []
        (.ok (some ⟨none, some ⟨"S", 1, false⟩⟩))).1 = .ok ⟨"S", 1, false⟩
    ∧ (PublishMsg 5 ⟨0, false, "", "", "", 0⟩ []
        (.ok (some ⟨none, some ⟨"", 1, false⟩⟩))).1 = .error .ErrInvalidJSAck
    ∧ (PublishMsg 5 ⟨0, false, "", "", "", 0⟩ []
        (.ok (some ⟨some ⟨10039, "oops"⟩, none⟩))).1 =
          .error (.errDescr "oops") :=
  ⟨(PublishMsg_ack_validation 5 ⟨0, false, "", "", "", 0⟩ []
      (some ⟨none, some ⟨"S", 1, false⟩⟩) (by simp)).2.2 _ _ rfl rfl rfl
      (by decide),
   ((PublishMsg_ack_validation 5 ⟨0, false, "", "", "", 0⟩ []
      (some ⟨none, some ⟨"", 1, false⟩⟩) (by simp)).1).mpr
      (by simp),
   (PublishMsg_ack_validation 5 ⟨0, false, "", "", "", 0⟩ []
      (some ⟨some ⟨10039, "oops"⟩, none⟩) (by simp)).2.1 _ _ rfl rfl⟩

/-- C6: for both `PublishMsg` and `Fetch`, supplying a caller context
together with a nonzero per-call timeout fails with `ErrContextAndTimeout`
independently of any transport interaction (the quantified `resp`/`io` never
influence the result); when neither is supplied, the context's default wait
becomes the effective timeout. -/
theorem context_and_timeout_exclusive :
    (∀ (wait : Int) (o : pubOpts) (h : Header)
        (resp : Except Err (Option pubAckResponse)),
        o.hasCtx = true → o.ttl ≠ 0 →
        (PublishMsg wait o h resp).1 = .error .ErrContextAndTimeout)
    ∧ (∀ (typOk : Bool) (wait batch : Int) (po : pullOpts) (io : FetchIO),
        po.hasCtx = true → po.ttl ≠ 0 →
        Fetch false typOk wait batch po io = ([], some .ErrContextAndTimeout))
    ∧ (∀ (wait : Int) (o : pubOpts), o.hasCtx = false → o.ttl = 0 →
        pubCheckOpts wait o = .ok wait)
    ∧ (∀ (wait : Int) (po : pullOpts), po.hasCtx = false → po.ttl = 0 →
        fetchTTL wait po = wait) := by
  refine ⟨?_, ?_, ?_, ?_⟩
  · intro wait o h resp hctx httl
    unfold PublishMsg pubCheckOpts
    rw [if_pos (by exact ⟨by simp [hctx], httl⟩)]
  · intro typOk wait batch po io hctx httl
    unfold Fetch
    rw [if_neg (by simp)]
    rw [if_pos (by exact ⟨by simp [hctx], httl⟩)]
  · intro wait o hctx httl
    simp [pubCheckOpts, hctx, httl]
  · intro wait po hctx httl
    simp [fetchTTL, httl]

/-- Witness for C6 at concrete inputs: both calls fail with
`ErrContextAndTimeout` when a context and a timeout are both supplied, and
both timeout computations fall back to the default wait when neither is. -/
theorem context_and_timeout_exclusive_witness :
    (PublishMsg 5 ⟨3, true, "", "", "", 0⟩ [] (.ok none)).1 =
        .error .ErrContextAndTimeout
    ∧ Fetch false true 5 2 ⟨3, true⟩
        ⟨none, .ok ⟨"s", "r", "x", []⟩, .ok ⟨"s", "r", "x", []⟩,
         none, none, none, none, none, []⟩ =
        ([], some .ErrContextAndTimeout)
    ∧ pubCheckOpts 5 ⟨0, false, "", "", "", 0⟩ = .ok 5
    ∧ fetchTTL 5 ⟨0, false⟩ = 5 :=
  ⟨context_and_timeout_exclusive.1 5 ⟨3, true, "", "", "", 0⟩ [] (.ok none)
      rfl (by decide),
   context_and_timeout_exclusive.2.1 true 5 2 ⟨3, true⟩ _ rfl (by decide),
   context_and_timeout_exclusive.2.2.1 5 ⟨0, false, "", "", "", 0⟩ rfl rfl,
   context_and_timeout_exclusive.2.2.2 5 ⟨0, false⟩ rfl rfl⟩

/-- C10: `PublishMsg` sets the `Nats-Expected-Last-Sequence` header only when
the expected-last-sequence option is strictly positive — an expectation of
last sequence 0 is not expressible — and sets the message-id,
expected-stream and expected-last-msg-id headers only when the corresponding
option value is a non-empty string. -/
theorem publish_header_options (o : pubOpts) (h : Header) :
    (o.seq = 0 →
      hGet (applyPubHeaders o h) ExpectedLastSeqHdr = hGet h ExpectedLastSeqHdr)
    ∧ (0 < o.seq →
      hGet (applyPubHeaders o h) ExpectedLastSeqHdr = toString o.seq)
    ∧ (o.id = "" →
      hGet (applyPubHeaders o h) MsgIdHdr = hGet h MsgIdHdr)
    ∧ (o.id ≠ "" →
      hGet (applyPubHeaders o h) MsgIdHdr = o.id)
    ∧ (o.str = "" →
      hGet (applyPubHeaders o h) ExpectedStreamHdr = hGet h ExpectedStreamHdr)
    ∧ (o.str ≠ "" →
      hGet (applyPubHeaders o h) ExpectedStreamHdr = o.str)
    ∧ (o.lid = "" →
      hGet (applyPubHeaders o h) ExpectedLastMsgIdHdr =
        hGet h ExpectedLastMsgIdHdr)
    ∧ (o.lid ≠ "" →
      hGet (applyPubHeaders o h) ExpectedLastMsgIdHdr = o.lid) := by
  refine ⟨?_, ?_, ?_, ?_, ?_, ?_, ?_, ?_⟩ <;> intro hx <;>
    (by_cases h1 : o.id = "" <;> by_cases h2 : o.lid = "" <;>
      by_cases h3 : o.str = "" <;> by_cases h4 : 0 < o.seq <;>
      first
        | exact absurd h1 hx
        | exact absurd h2 hx
        | exact absurd h3 hx
        | exact absurd hx h4
        | (simp [applyPubHeaders, hSet, hGet, MsgIdHdr, ExpectedStreamHdr,
            ExpectedLastSeqHdr, ExpectedLastMsgIdHdr, h1, h2, h3, h4, hx]))

/-- Witness for C10 at concrete inputs: with all options at their zero
values the four headers are untouched, and with all options set the four
headers carry the option values. -/
theorem publish_header_options_witness :
    hGet (applyPubHeaders ⟨0, false, "", "", "", 0⟩ [("X", "y")])
        ExpectedLastSeqHdr =
      hGet [("X", "y")] ExpectedLastSeqHdr
    ∧ hGet (applyPubHeaders ⟨0, false, "", "", "", 0⟩ [("X", "y")]) MsgIdHdr =
      hGet [("X", "y")] MsgIdHdr
    ∧ hGet (applyPubHeaders ⟨0, false, "i", "l", "s", 7⟩ [])
        ExpectedLastSeqHdr = toString 7
    ∧ hGet (applyPubHeaders ⟨0, false, "i", "l", "s", 7⟩ []) MsgIdHdr = "i"
    ∧ hGet (applyPubHeaders ⟨0, false, "i", "l", "s", 7⟩ [])
        ExpectedStreamHdr = "s"
    ∧ hGet (applyPubHeaders ⟨0, false, "i", "l", "s", 7⟩ [])
        ExpectedLastMsgIdHdr = "l" :=
  ⟨(publish_header_options ⟨0, false, "", "", "", 0⟩ [("X", "y")]).1 rfl,
   (publish_header_options ⟨0, false, "", "", "", 0⟩ [("X", "y")]).2.2.1 rfl,
   (publish_header_options ⟨0, false, "i", "l", "s", 7⟩ []).2.1 (by decide),
   (publish_header_options ⟨0, false, "i", "l", "s", 7⟩ []).2.2.2.1 (by decide),
   (publish_header_options ⟨0, false, "i", "l", "s", 7⟩ []).2.2.2.2.2.1
     (by decide),
   (publish_header_options ⟨0, false, "i", "l", "s", 7⟩ []).2.2.2.2.2.2.2
     (by decide)⟩

/- Metadata parser (`js.go` lines 1315-1379). -/

/-- The token splitter inside `MetaData` (`js.go` lines 1334-1343): cut the
reply subject at every `'.'`; `cur` accumulates the current token in
reverse. -/
def splitDotsAux (cur : List Char) : List Char → List String
  | [] => [String.mk cur.reverse]
  | c :: cs =>
      if c = '.' then String.mk cur.reverse :: splitDotsAux [] cs
      else splitDotsAux (c :: cur) cs

/-- Split a subject into its dot-separated tokens. -/
def splitDots (s : String) : List String := splitDotsAux [] s.toList

/-- The loop of `parseNum` (`js.go` lines 1372-1378): a strict
ASCII-digits-only scan; any character outside `'0'..'9'` yields `-1`. -/
def parseNumLoop (n : Int) : List Char → Int
  | [] => n
  | c :: rest =>
      if c.toNat < 48 ∨ 57 < c.toNat then -1
      else parseNumLoop (n * 10 + ((c.toNat : Int) - 48)) rest

/-- `parseNum` (`js.go` lines 1361-1379): parse a positive decimal number;
the empty string and any non-digit character yield `-1`. -/
def parseNum (d : String) : Int :=
  if d.length = 0 then -1 else parseNumLoop 0 d.toList

/-- Go's `uint64(n)` conversion of an `int64`: reduce modulo `2^64`. -/
def uint64Of (n : Int) : Nat := (n % (2 : Int) ^ 64).toNat

/-- `MsgMetaData` (`js.go` lines 1316-1323); the timestamp is kept as the
parsed nanosecond count passed to `time.Unix(0, ·)`. -/
structure MsgMetaData where
  consumer : Nat
  stream : Nat
  delivered : Nat
  pending : Nat
  timestamp : Int
  streamName : String
deriving DecidableEq, Repr

/-- `(*Msg).MetaData` (`js.go` lines 1326-1358): `checkReply` requires a
bound message (`bound` models `m.Sub != nil`) with a non-empty reply subject;
the reply subject must split into exactly 9 tokens led by `$JS.ACK`, else
`ErrNotJSMessage`; the numeric fields are parsed with `parseNum` and
converted to `uint64` (the timestamp stays an `int64` nanosecond count). -/
def MetaData (bound : Bool) (m : Msg) : Except Err MsgMetaData :=
  if bound = false then .error .ErrMsgNotBound
  else if m.reply = "" then .error .ErrMsgNoReply
  else
    let tokens := splitDots m.reply
    if tokens.length ≠ 9 ∨ tokens.getD 0 "" ≠ "$JS" ∨ tokens.getD 1 "" ≠ "ACK"
    then .error .ErrNotJSMessage
    else .ok {
      consumer := uint64Of (parseNum (tokens.getD 6 ""))
      stream := uint64Of (parseNum (tokens.getD 5 ""))
      delivered := uint64Of (parseNum (tokens.getD 4 ""))
      pending := uint64Of (parseNum (tokens.getD 8 ""))
      timestamp := parseNum (tokens.getD 7 "")
      streamName := tokens.getD 2 "" }

theorem parseNumLoop_nondigit :
    ∀ (l : List Char) (n : Int), (∃ c ∈ l, c.toNat < 48 ∨ 57 < c.toNat) →
      parseNumLoop n l = -1 := by
  intro l
  induction l with
  | nil => rintro n ⟨c, hc, _⟩; simp at hc
  | cons c rest ih =>
      rintro n ⟨c2, hmem, hd⟩
      rcases List.mem_cons.mp hmem with rfl | hmem2
      · simp only [parseNumLoop, if_pos hd]
      · by_cases hc : c.toNat < 48 ∨ 57 < c.toNat
        · simp only [parseNumLoop, if_pos hc]
        · simp only [parseNumLoop, if_neg hc]
          exact ih _ ⟨c2, hmem2, hd⟩

theorem parseNum_nondigit (d : String)
    (h : ∃ c ∈ d.toList, c.toNat < 48 ∨ 57 < c.toNat) : parseNum d = -1 := by
  unfold parseNum
  by_cases hl : d.length = 0
  · simp [hl]
  · simp only [if_neg hl]
    exact parseNumLoop_nondigit _ 0 h

/-- C4: `MetaData` on a bound message with a non-empty reply subject succeeds
exactly when the reply splits on `'.'` into 9 tokens led by `$JS` and `ACK`
(failing with `ErrNotJSMessage` otherwise), the numeric token positions 4-8
are parsed with the strict digits-only scan `parseNum` (cast to `uint64`,
the timestamp kept as `int64` nanoseconds), and any token containing a
non-digit character parses to `-1`. -/
theorem MetaData_reply_format (m : Msg) (hr : m.reply ≠ "") :
    (((splitDots m.reply).length = 9 ∧ (splitDots m.reply).getD 0 "" = "$JS"
        ∧ (splitDots m.reply).getD 1 "" = "ACK") →
      MetaData true m = .ok {
        consumer := uint64Of (parseNum ((splitDots m.reply).getD 6 ""))
        stream := uint64Of (parseNum ((splitDots m.reply).getD 5 ""))
        delivered := uint64Of (parseNum ((splitDots m.reply).getD 4 ""))
        pending := uint64Of (parseNum ((splitDots m.reply).getD 8 ""))
        timestamp := parseNum ((splitDots m.reply).getD 7 "")
        streamName := (splitDots m.reply).getD 2 "" })
    ∧ (¬((splitDots m.reply).length = 9 ∧ (splitDots m.reply).getD 0 "" = "$JS"
        ∧ (splitDots m.reply).getD 1 "" = "ACK") →
      MetaData true m = .error .ErrNotJSMessage)
    ∧ (∀ d : String, (∃ c ∈ d.toList, c.toNat < 48 ∨ 57 < c.toNat) →
        parseNum d = -1) := by
  refine ⟨?_, ?_, fun d hd => parseNum_nondigit d hd⟩
  · rintro ⟨hlen, h0, h1⟩
    unfold MetaData
    rw [if_neg (by simp), if_neg hr,
      if_neg (by push_neg; exact ⟨hlen, h0, h1⟩)]
  · intro hno
    unfold MetaData
    rw [if_neg (by simp), if_neg hr, if_pos (by tauto)]

/-- Witness for C4 at concrete inputs: a valid 9-token ack reply subject
yields the exact field values, and a token with a non-digit character parses
to `-1`. -/
theorem MetaData_reply_format_witness :
    MetaData true ⟨"s", "$JS.ACK.TEST.c.1.2.3.4.5", "x", []⟩ =
      .ok { consumer := 3, stream := 2, delivered := 1, pending := 5,
            timestamp := 4, streamName := "TEST" }
    ∧ parseNum "4x" = -1 :=
  ⟨by
    rw [(MetaData_reply_format ⟨"s", "$JS.ACK.TEST.c.1.2.3.4.5", "x", []⟩
      (by decide)).1 (by decide)]
    rfl,
   (MetaData_reply_format ⟨"s", "$JS.ACK.TEST.c.1.2.3.4.5", "x", []⟩
      (by decide)).2.2 "4x" ⟨'x', by decide, by decide⟩⟩

/- Enum JSON codecs (`js.go` lines 1381-1694).  The Go enums are integer
types; they are embedded as `Int` with the source's named constants.
`MarshalJSON` produces the JSON bytes of the tag string; `UnmarshalJSON`
takes the receiver's current value and the raw bytes, returning the decoded
value (Go writes through the receiver pointer). -/

/-- `jsonString` (`js.go` lines 1398-1400). -/
def jsonString (s : String) : String := "\"" ++ s ++ "\""

abbrev AckPolicy := Int

def AckNonePolicy : AckPolicy := 0

def AckAllPolicy : AckPolicy := 1

def AckExplicitPolicy : AckPolicy := 2

def ackPolicyNotSet : AckPolicy := 99

def AckPolicy.UnmarshalJSON (_p : AckPolicy) (data : String) :
    Except String AckPolicy :=
  if data = jsonString "none" then .ok AckNonePolicy
  else if data = jsonString "all" then .ok AckAllPolicy
  else if data = jsonString "explicit" then .ok AckExplicitPolicy
  else .error ("can not unmarshal " ++ data)

def AckPolicy.MarshalJSON (p : AckPolicy) : Except String String :=
  if p = AckNonePolicy then .ok (jsonString "none")
  else if p = AckAllPolicy then .ok (jsonString "all")
  else if p = AckExplicitPolicy then .ok (jsonString "explicit")
  else .error ("unknown acknowlegement policy " ++ toString p)

abbrev ReplayPolicy := Int

def ReplayInstantPolicy : ReplayPolicy := 0

def ReplayOriginalPolicy : ReplayPolicy := 1

def ReplayPolicy.UnmarshalJSON (_p : ReplayPolicy) (data : String) :
    Except String ReplayPolicy :=
  if data = jsonString "instant" then .ok ReplayInstantPolicy
  else if data = jsonString "original" then .ok ReplayOriginalPolicy
  else .error ("can not unmarshal " ++ data)

def ReplayPolicy.MarshalJSON (p : ReplayPolicy) : Except String String :=
  if p = ReplayOriginalPolicy then .ok (jsonString "original")
  else if p = ReplayInstantPolicy then .ok (jsonString "instant")
  else .error ("unknown replay policy " ++ toString p)

abbrev DeliverPolicy := Int

def DeliverAllPolicy : DeliverPolicy := 0

def DeliverLastPolicy : DeliverPolicy := 1

def DeliverNewPolicy : DeliverPolicy := 2

def DeliverByStartSequencePolicy : DeliverPolicy := 3

def DeliverByStartTimePolicy : DeliverPolicy := 4

/-- `DeliverPolicy.UnmarshalJSON` (`js.go` lines 1509-1524): note the switch
has no default case — an unrecognized tag leaves the receiver unchanged and
returns a nil error. -/
def DeliverPolicy.UnmarshalJSON (p : DeliverPolicy) (data : String) :
    Except String DeliverPolicy :=
  if data = jsonString "all" ∨ data = jsonString "undefined" then
    .ok DeliverAllPolicy
  else if data = jsonString "last" then .ok DeliverLastPolicy
  else if data = jsonString "new" then .ok DeliverNewPolicy
  else if data = jsonString "by_start_sequence" then
    .ok DeliverByStartSequencePolicy
  else if data = jsonString "by_start_time" then .ok DeliverByStartTimePolicy
  else .ok p

def DeliverPolicy.MarshalJSON (p : DeliverPolicy) : Except String String :=
  if p = DeliverAllPolicy then .ok (jsonString "all")
  else if p = DeliverLastPolicy then .ok (jsonString "last")
  else if p = DeliverNewPolicy then .ok (jsonString "new")
  else if p = DeliverByStartSequencePolicy then
    .ok (jsonString "by_start_sequence")
  else if p = DeliverByStartTimePolicy then .ok (jsonString "by_start_time")
  else .error ("unknown deliver policy " ++ toString p)

abbrev RetentionPolicy := Int

def LimitsPolicy : RetentionPolicy := 0

def InterestPolicy : RetentionPolicy := 1

def WorkQueuePolicy : RetentionPolicy := 2

def limitsPolicyString : String := "limits"

def interestPolicyString : String := "interest"

def workQueuePolicyString : String := "workqueue"

def RetentionPolicy.MarshalJSON (rp : RetentionPolicy) : Except String String :=
  if rp = LimitsPolicy then .ok (jsonString limitsPolicyString)
  else if rp = InterestPolicy then .ok (jsonString interestPolicyString)
  else if rp = WorkQueuePolicy then .ok (jsonString workQueuePolicyString)
  else .error ("can not marshal " ++ toString rp)

def RetentionPolicy.UnmarshalJSON (_rp : RetentionPolicy) (data : String) :
    Except String RetentionPolicy :=
  if data = jsonString limitsPolicyString then .ok LimitsPolicy
  else if data = jsonString interestPolicyString then .ok InterestPolicy
  else if data = jsonString workQueuePolicyString then .ok WorkQueuePolicy
  else .error ("can not unmarshal " ++ data)

abbrev DiscardPolicy := Int

def DiscardOld : DiscardPolicy := 0

def DiscardNew : DiscardPolicy := 1

def DiscardPolicy.MarshalJSON (dp : DiscardPolicy) : Except String String :=
  if dp = DiscardOld then .ok (jsonString "old")
  else if dp = DiscardNew then .ok (jsonString "new")
  else .error ("can not marshal " ++ toString dp)

/-- `strings.ToLower` restricted to what the discard-policy tags need:
per-character ASCII lowercasing. -/
def toLowerStr (s : String) : String := String.mk (s.toList.map Char.toLower)

/-- `DiscardPolicy.UnmarshalJSON` (`js.go` lines 1635-1645): the incoming
bytes are lowercased before comparison. -/
def DiscardPolicy.UnmarshalJSON (_dp : DiscardPolicy) (data : String) :
    Except String DiscardPolicy :=
  if toLowerStr data = jsonString "old" then .ok DiscardOld
  else if toLowerStr data = jsonString "new" then .ok DiscardNew
  else .error ("can not unmarshal " ++ data)

abbrev StorageType := Int

def FileStorage : StorageType := 0

def MemoryStorage : StorageType := 1

def memoryStorageString : String := "memory"

def fileStorageString : String := "file"

def StorageType.MarshalJSON (st : StorageType) : Except String String :=
  if st = MemoryStorage then .ok (jsonString memoryStorageString)
  else if st = FileStorage then .ok (jsonString fileStorageString)
  else .error ("can not marshal " ++ toString st)

def StorageType.UnmarshalJSON (_st : StorageType) (data : String) :
    Except String StorageType :=
  if data = jsonString memoryStorageString then .ok MemoryStorage
  else if data = jsonString fileStorageString then .ok FileStorage
  else .error ("can not unmarshal " ++ data)

/-- Encode a value and decode the produced bytes into a receiver holding
`q`. -/
def encDec (enc : Int → Except String String)
    (dec : Int → String → Except String Int) (q p : Int) : Except String Int :=
  match enc p with
  | .ok s => dec q s
  | .error e => .error e

/-- C8: for every defined value of AckPolicy, DeliverPolicy, ReplayPolicy,
RetentionPolicy, DiscardPolicy and StorageType, JSON-encoding the value and
then decoding the produced tag (into a receiver holding any value `q`)
yields the original value. -/
theorem enum_roundtrip (q : Int) :
    encDec AckPolicy.MarshalJSON AckPolicy.UnmarshalJSON q AckNonePolicy =
        .ok AckNonePolicy
    ∧ encDec AckPolicy.MarshalJSON AckPolicy.UnmarshalJSON q AckAllPolicy =
        .ok AckAllPolicy
    ∧ encDec AckPolicy.MarshalJSON AckPolicy.UnmarshalJSON q AckExplicitPolicy =
        .ok AckExplicitPolicy
    ∧ encDec ReplayPolicy.MarshalJSON ReplayPolicy.UnmarshalJSON q
        ReplayInstantPolicy = .ok ReplayInstantPolicy
    ∧ encDec ReplayPolicy.MarshalJSON ReplayPolicy.UnmarshalJSON q
        ReplayOriginalPolicy = .ok ReplayOriginalPolicy
    ∧ encDec DeliverPolicy.MarshalJSON DeliverPolicy.UnmarshalJSON q
        DeliverAllPolicy = .ok DeliverAllPolicy
    ∧ encDec DeliverPolicy.MarshalJSON DeliverPolicy.UnmarshalJSON q
        DeliverLastPolicy = .ok DeliverLastPolicy
    ∧ encDec DeliverPolicy.MarshalJSON DeliverPolicy.UnmarshalJSON q
        DeliverNewPolicy = .ok DeliverNewPolicy
    ∧ encDec DeliverPolicy.MarshalJSON DeliverPolicy.UnmarshalJSON q
        DeliverByStartSequencePolicy = .ok DeliverByStartSequencePolicy
    ∧ encDec DeliverPolicy.MarshalJSON DeliverPolicy.UnmarshalJSON q
        DeliverByStartTimePolicy = .ok DeliverByStartTimePolicy
    ∧ encDec RetentionPolicy.MarshalJSON RetentionPolicy.UnmarshalJSON q
        LimitsPolicy = .ok LimitsPolicy
    ∧ encDec RetentionPolicy.MarshalJSON RetentionPolicy.UnmarshalJSON q
        InterestPolicy = .ok InterestPolicy
    ∧ encDec RetentionPolicy.MarshalJSON RetentionPolicy.UnmarshalJSON q
        WorkQueuePolicy = .ok WorkQueuePolicy
    ∧ encDec DiscardPolicy.MarshalJSON DiscardPolicy.UnmarshalJSON q
        DiscardOld = .ok DiscardOld
    ∧ encDec DiscardPolicy.MarshalJSON DiscardPolicy.UnmarshalJSON q
        DiscardNew = .ok DiscardNew
    ∧ encDec StorageType.MarshalJSON StorageType.UnmarshalJSON q
        FileStorage = .ok FileStorage
    ∧ encDec StorageType.MarshalJSON StorageType.UnmarshalJSON q
        MemoryStorage = .ok MemoryStorage :=
  ⟨rfl, rfl, rfl, rfl, rfl, rfl, rfl, rfl, rfl, rfl, rfl, rfl, rfl, rfl, rfl,
   rfl, rfl⟩

/-- Counterexample for C9: `DeliverPolicy.UnmarshalJSON` accepts the
unrecognized tag `"bogus"` without error, leaving the receiver unchanged —
its switch has no default case, unlike the other five enum decoders. -/
theorem DeliverPolicy_unknown_tag_no_error :
    DeliverPolicy.UnmarshalJSON DeliverAllPolicy (jsonString "bogus") =
      .ok DeliverAllPolicy := rfl

/-- C9 (amended): AckPolicy, ReplayPolicy, RetentionPolicy, DiscardPolicy
and StorageType surface an unknown tag on decode as an error, but
DeliverPolicy silently accepts any unrecognized tag, returning the
receiver's current value with a nil error. -/
theorem enum_unknown_tag (q : Int) (data : String) :
    (data ≠ jsonString "none" → data ≠ jsonString "all" →
      data ≠ jsonString "explicit" →
      AckPolicy.UnmarshalJSON q data = .error ("can not unmarshal " ++ data))
    ∧ (data ≠ jsonString "instant" → data ≠ jsonString "original" →
      ReplayPolicy.UnmarshalJSON q data = .error ("can not unmarshal " ++ data))
    ∧ (data ≠ jsonString limitsPolicyString →
      data ≠ jsonString interestPolicyString →
      data ≠ jsonString workQueuePolicyString →
      RetentionPolicy.UnmarshalJSON q data =
        .error ("can not unmarshal " ++ data))
    ∧ (toLowerStr data ≠ jsonString "old" → toLowerStr data ≠ jsonString "new" →
      DiscardPolicy.UnmarshalJSON q data = .error ("can not unmarshal " ++ data))
    ∧ (data ≠ jsonString memoryStorageString →
      data ≠ jsonString fileStorageString →
      StorageType.UnmarshalJSON q data = .error ("can not unmarshal " ++ data))
    ∧ (data ≠ jsonString "all" → data ≠ jsonString "undefined" →
      data ≠ jsonString "last" → data ≠ jsonString "new" →
      data ≠ jsonString "by_start_sequence" →
      data ≠ jsonString "by_start_time" →
      DeliverPolicy.UnmarshalJSON q data = .ok q) := by
  refine ⟨?_, ?_, ?_, ?_, ?_, ?_⟩
  · intro h1 h2 h3
    simp [AckPolicy.UnmarshalJSON, h1, h2, h3]
  · intro h1 h2
    simp [ReplayPolicy.UnmarshalJSON, h1, h2]
  · intro h1 h2 h3
    simp [RetentionPolicy.UnmarshalJSON, h1, h2, h3]
  · intro h1 h2
    simp [DiscardPolicy.UnmarshalJSON, h1, h2]
  · intro h1 h2
    simp [StorageType.UnmarshalJSON, h1, h2]
  · intro h1 h2 h3 h4 h5 h6
    simp [DeliverPolicy.UnmarshalJSON, h1, h2, h3, h4, h5, h6]

/-- Witness for the amended C9 at a concrete input: the tag `"bogus"` is
rejected by the five erroring decoders and silently accepted by
`DeliverPolicy`. -/
theorem enum_unknown_tag_witness :
    AckPolicy.UnmarshalJSON 0 (jsonString "bogus") =
        .error ("can not unmarshal " ++ jsonString "bogus")
    ∧ ReplayPolicy.UnmarshalJSON 0 (jsonString "bogus") =
        .error ("can not unmarshal " ++ jsonString "bogus")
    ∧ RetentionPolicy.UnmarshalJSON 0 (jsonString "bogus") =
        .error ("can not unmarshal " ++ jsonString "bogus")
    ∧ DiscardPolicy.UnmarshalJSON 0 (jsonString "bogus") =
        .error ("can not unmarshal " ++ jsonString "bogus")
    ∧ StorageType.UnmarshalJSON 0 (jsonString "bogus") =
        .error ("can not unmarshal " ++ jsonString "bogus")
    ∧ DeliverPolicy.UnmarshalJSON 0 (jsonString "bogus") = .ok 0 :=
  ⟨(enum_unknown_tag 0 (jsonString "bogus")).1 (by decide) (by decide)
      (by decide),
   (enum_unknown_tag 0 (jsonString "bogus")).2.1 (by decide) (by decide),
   (enum_unknown_tag 0 (jsonString "bogus")).2.2.1 (by decide) (by decide)
      (by decide),
   (enum_unknown_tag 0 (jsonString "bogus")).2.2.2.1 (by decide) (by decide),
   (enum_unknown_tag 0 (jsonString "bogus")).2.2.2.2.1 (by decide) (by decide),
   (enum_unknown_tag 0 (jsonString "bogus")).2.2.2.2.2 (by decide) (by decide)
      (by decide) (by decide) (by decide) (by decide)⟩

/- Unsubscribe (`js.go` lines 459-473). -/

/-- `(*jsSub).unsubscribe` (`js.go` lines 459-473), reduced to its observable
server-side action: returns `true` iff a `CONSUMER.DELETE` request is issued.
Drain mode with a durable or attached consumer skips deletion, direct mode
skips deletion, and otherwise `DeleteConsumer` is called. -/
def unsubscribe (drainMode durable attached direct : Bool) : Bool :=
  if drainMode ∧ (durable ∨ attached) then false
  else if direct then false
  else true

/-- Counterexample for C7: a non-drain unsubscribe of a durable,
non-attached subscription in non-direct mode DOES issue the server-side
`CONSUMER.DELETE` — the durable/attached guard applies only in drain mode,
so durables do not survive a plain unsubscribe. -/
theorem unsubscribe_durable_counterexample :
    unsubscribe false true false false = true := rfl

/-- C7 (amended): a server-side `CONSUMER.DELETE` is issued exactly when the
context is not in direct mode and it is not the case that drain mode is
combined with a durable or attached consumer; in particular a non-drain
unsubscribe in non-direct mode deletes the consumer regardless of the
durable/attached flags. -/
theorem unsubscribe_delete_condition :
    ∀ drainMode durable attached direct : Bool,
      unsubscribe drainMode durable attached direct =
        (!direct && !(drainMode && (durable || attached))) := by
  intro a b c d
  cases a <;> cases b <;> cases c <;> cases d <;> rfl
